import Mathlib

/-!
Verification of the DiveComputer setpoint / gas-list components.

Shallow embedding of the C++ sources:
  * `SetPoints` (set_points.cpp): parallel vectors `m_depths`, `m_setPoints`,
    sorting, lookup `getSetPointAtDepth`, add/remove, binary persistence.
  * `GasList` (gaslist.cpp): vector of `Gas`, binary persistence.
  * `DivePlanWindow` delete handlers (dive_plan_gui_stopsteps.cpp,
    dive_plan_gui_setpoints part): guarded deletion keeping one entry.

C++ `double` is modelled as `ℚ`; `std::vector` as `List`; the binary files
as token lists (one token per fixed-width field written by the code).
-/

namespace DiveComputer

/-- The comparator used by `SetPoints::sortSetPoints` (reflexive closure of
the strict C++ lambda: decreasing depth, decreasing setpoint on equal depth). -/
def spLE (a b : ℚ × ℚ) : Prop :=
  b.1 < a.1 ∨ (a.1 = b.1 ∧ b.2 ≤ a.2)

instance spLE.instDecidableRel : DecidableRel spLE := fun a b =>
  inferInstanceAs (Decidable (b.1 < a.1 ∨ (a.1 = b.1 ∧ b.2 ≤ a.2)))

instance spLE.instIsTotal : IsTotal (ℚ × ℚ) spLE := by
  constructor
  intro a b
  rcases lt_trichotomy a.1 b.1 with h | h | h
  · exact Or.inr (Or.inl h)
  · rcases le_total a.2 b.2 with h2 | h2
    · exact Or.inr (Or.inr ⟨h.symm, h2⟩)
    · exact Or.inl (Or.inr ⟨h, h2⟩)
  · exact Or.inl (Or.inl h)

instance spLE.instIsTrans : IsTrans (ℚ × ℚ) spLE := by
  constructor
  intro a b c hab hbc
  rcases hab with h1 | ⟨e1, s1⟩
  · rcases hbc with h2 | ⟨e2, _⟩
    · exact Or.inl (h2.trans h1)
    · exact Or.inl (e2 ▸ h1)
  · rcases hbc with h2 | ⟨e2, s2⟩
    · exact Or.inl (e1 ▸ h2)
    · exact Or.inr ⟨e1.trans e2, s2.trans s1⟩

/-- The `SetPoints` class: two parallel vectors of doubles. -/
structure SetPoints where
  m_depths : List ℚ
  m_setPoints : List ℚ
deriving DecidableEq

namespace SetPoints

/-- SetPoints::nbOfSetPoints (accessor; count of entries). -/
def nbOfSetPoints (sp : SetPoints) : ℕ := sp.m_depths.length

/-- SetPoints::sortSetPoints: zip the two vectors into pairs, sort by
decreasing depth then decreasing setpoint, and unzip back. -/
def sortSetPoints (sp : SetPoints) : SetPoints :=
  let pairs := sp.m_depths.zip sp.m_setPoints
  let sorted := pairs.insertionSort spLE
  ⟨sorted.map Prod.fst, sorted.map Prod.snd⟩

/-- SetPoints::addSetPoint: push the pair on both vectors, then sort. -/
def addSetPoint (sp : SetPoints) (depth setpoint : ℚ) : SetPoints :=
  sortSetPoints ⟨sp.m_depths ++ [depth], sp.m_setPoints ++ [setpoint]⟩

/-- SetPoints::removeSetPoint: bounds-checked erase from both vectors. -/
def removeSetPoint (sp : SetPoints) (index : ℕ) : SetPoints :=
  if index < sp.m_depths.length then
    ⟨sp.m_depths.eraseIdx index, sp.m_setPoints.eraseIdx index⟩
  else sp

/-- SetPoints::setToDefault: the four seeded default setpoints. -/
def setToDefault (sp : SetPoints) : SetPoints :=
  ((((sp.addSetPoint 1000 (13/10)).addSetPoint 40 (14/10)).addSetPoint
      21 (15/10)).addSetPoint 6 (16/10))

/-- The loop of Case C in `SetPoints::getSetPointAtDepth`: scan adjacent
depth pairs for the first index i with depth < depths[i] and
depth >= depths[i+1]; return that setpoint, `none` when the loop falls
through. -/
def scanIntervals : List ℚ → List ℚ → ℚ → Option ℚ
  | d0 :: d1 :: ds, s0 :: ss, depth =>
    if depth < d0 ∧ d1 ≤ depth then some s0
    else scanIntervals (d1 :: ds) ss depth
  | _, _, _ => none

/-- SetPoints::getSetPointAtDepth. `maxPpO2Diluent` stands for the global
`g_parameters.m_maxPpO2Diluent` read in the empty-list branch. -/
def getSetPointAtDepth (sp : SetPoints) (depth : ℚ) (boosted : Bool)
    (maxPpO2Diluent : ℚ) : ℚ :=
  let s := sortSetPoints sp
  if s.m_depths.isEmpty then maxPpO2Diluent
  else if s.m_depths.headD 0 ≤ depth ∨ boosted = false then
    s.m_setPoints.headD 0
  else if depth < s.m_depths.getLastD 0 then s.m_setPoints.getLastD 0
  else
    match scanIntervals s.m_depths s.m_setPoints depth with
    | some v => v
    | none => s.m_setPoints.headD 0

end SetPoints

/-- GasType from enum.hpp (values used by gaslist.cpp; the spec lists
Bottom, Deco, Diluent). -/
inductive GasType where
  | BOTTOM : GasType
  | DECO : GasType
  | DILUENT : GasType
deriving DecidableEq

/-- GasStatus from enum.hpp. -/
inductive GasStatus where
  | ACTIVE : GasStatus
  | INACTIVE : GasStatus
deriving DecidableEq

/-- The four fields of `Gas` that gaslist.cpp constructs and serializes. -/
structure Gas where
  m_o2Percent : ℚ
  m_hePercent : ℚ
  m_gasType : GasType
  m_gasStatus : GasStatus
deriving DecidableEq

/-- The `GasList` class: a vector of gases. -/
structure GasList where
  gases : List Gas
deriving DecidableEq

/-- One fixed-width field of the binary persistence files: a size_t count, a
double, or one of the two int32 enums. -/
inductive FileTok where
  | nat : ℕ → FileTok
  | num : ℚ → FileTok
  | gty : GasType → FileTok
  | gst : GasStatus → FileTok
deriving DecidableEq

/-- Outcome of opening the persistence file for reading: absent, present
but unopenable, or present with the given field stream. -/
inductive FileState where
  | missing : FileState
  | openFail : FileState
  | ok : List FileTok → FileState

/-- The record section written by `SetPoints::saveSetPointsToFile`: depth
then setpoint per entry. -/
def serializePairs : List (ℚ × ℚ) → List FileTok
  | [] => []
  | p :: ps => FileTok.num p.1 :: FileTok.num p.2 :: serializePairs ps

/-- The full field stream written by `SetPoints::saveSetPointsToFile`:
count, then the records. -/
def saveSetPointsContent (sp : SetPoints) : List FileTok :=
  FileTok.nat sp.nbOfSetPoints :: serializePairs (sp.m_depths.zip sp.m_setPoints)

/-- The read loop of `SetPoints::loadSetPointsFromFile`: read `count`
records of two doubles; the Bool is false when a read fails (the catch
branch), in which case the records read so far are kept. -/
def readSetPointRecords : ℕ → List FileTok → Bool × List ℚ × List ℚ
  | 0, _ => (true, [], [])
  | n + 1, FileTok.num dep :: FileTok.num st :: rest =>
    let r := readSetPointRecords n rest
    (r.1, dep :: r.2.1, st :: r.2.2)
  | _ + 1, _ => (false, [], [])

/-- SetPoints::loadSetPointsFromFile. The member vectors are cleared at
entry, so the prior state `sp` never reaches the result; the missing-file
branch seeds the defaults (and writes them back, a file effect not modelled
here); an empty loaded list is replaced by the defaults. -/
def loadSetPointsFromFile (_sp : SetPoints) (file : FileState) : Bool × SetPoints :=
  match file with
  | FileState.missing => (false, SetPoints.setToDefault ⟨[], []⟩)
  | FileState.openFail => (false, ⟨[], []⟩)
  | FileState.ok toks =>
    match toks with
    | FileTok.nat count :: rest =>
      let r := readSetPointRecords count rest
      if r.1 then
        if r.2.1.isEmpty then (true, SetPoints.setToDefault ⟨r.2.1, r.2.2⟩)
        else (true, ⟨r.2.1, r.2.2⟩)
      else (false, ⟨r.2.1, r.2.2⟩)
    | _ => (false, ⟨[], []⟩)

/-- The record section written by `GasList::saveGaslistToFile`: o2, he,
type, status per gas. -/
def serializeGases : List Gas → List FileTok
  | [] => []
  | g :: gs => FileTok.num g.m_o2Percent :: FileTok.num g.m_hePercent ::
      FileTok.gty g.m_gasType :: FileTok.gst g.m_gasStatus :: serializeGases gs

/-- The full field stream written by `GasList::saveGaslistToFile`. -/
def saveGaslistContent (gl : GasList) : List FileTok :=
  FileTok.nat gl.gases.length :: serializeGases gl.gases

/-- The read loop of `GasList::loadGaslistFromFile`. -/
def readGasRecords : ℕ → List FileTok → Bool × List Gas
  | 0, _ => (true, [])
  | n + 1, FileTok.num o2 :: FileTok.num he :: FileTok.gty t ::
      FileTok.gst st :: rest =>
    let r := readGasRecords n rest
    (r.1, ⟨o2, he, t, st⟩ :: r.2)
  | _ + 1, _ => (false, [])

/-- GasList::loadGaslistFromFile. The list is cleared only after the file is
opened; a missing file seeds the default 21% O2 bottom gas when the list is
empty (and writes the file back, not modelled). -/
def loadGaslistFromFile (gl : GasList) (file : FileState) : Bool × GasList :=
  match file with
  | FileState.missing =>
    (false,
      if gl.gases.isEmpty then
        ⟨gl.gases ++ [⟨21, 0, GasType.BOTTOM, GasStatus.ACTIVE⟩]⟩
      else gl)
  | FileState.openFail => (false, gl)
  | FileState.ok toks =>
    match toks with
    | FileTok.nat count :: rest =>
      let r := readGasRecords count rest
      (r.1, ⟨r.2⟩)
    | _ => (false, ⟨[]⟩)

section SortLemmas

open List

/-- Zipping the two projections of a pair list gives it back. -/
theorem zip_map_fst_snd_eq {α β : Type} :
    ∀ l : List (α × β), (l.map Prod.fst).zip (l.map Prod.snd) = l := by
  intro l
  induction l with
  | nil => rfl
  | cons a l ih => simpa using ih

/-- After sorting, the two vectors have the same length. -/
theorem sortSetPoints_length_eq (sp : SetPoints) :
    (sp.sortSetPoints).m_depths.length = (sp.sortSetPoints).m_setPoints.length := by
  simp [SetPoints.sortSetPoints]

/-- The zip of a sorted `SetPoints` is the insertion sort of the zip. -/
theorem sortSetPoints_zip (sp : SetPoints) :
    (sp.sortSetPoints).m_depths.zip (sp.sortSetPoints).m_setPoints
      = (sp.m_depths.zip sp.m_setPoints).insertionSort spLE := by
  simp only [SetPoints.sortSetPoints]
  exact zip_map_fst_snd_eq _

/-- The sorted zip is pairwise ordered by the comparator. -/
theorem sortSetPoints_pairwise (sp : SetPoints) :
    ((sp.sortSetPoints).m_depths.zip (sp.sortSetPoints).m_setPoints).Pairwise spLE := by
  rw [sortSetPoints_zip]
  exact List.sorted_insertionSort spLE _

/-- Sorting permutes the zipped pairs. -/
theorem sortSetPoints_perm (sp : SetPoints) :
    ((sp.sortSetPoints).m_depths.zip (sp.sortSetPoints).m_setPoints).Perm
      (sp.m_depths.zip sp.m_setPoints) := by
  rw [sortSetPoints_zip]
  exact List.perm_insertionSort spLE _

end SortLemmas

section IndexLemmas

/-- getD at an in-bounds index is the element there. -/
theorem getD_lt {α : Type} [Inhabited α] (l : List α) (d : α) (i : ℕ)
    (h : i < l.length) : l.getD i d = l.get ⟨i, h⟩ := by
  simp [List.getD_eq_getElem?_getD, List.getElem?_eq_getElem h]

/-- Adjacent entries of the sorted vectors satisfy the comparator, stated
componentwise on the two parallel vectors. -/
theorem sorted_adjacent (sp : SetPoints) (i : ℕ)
    (hi : i + 1 < (sp.sortSetPoints).nbOfSetPoints) :
    (sp.sortSetPoints).m_depths.getD (i+1) 0 < (sp.sortSetPoints).m_depths.getD i 0 ∨
    ((sp.sortSetPoints).m_depths.getD i 0 = (sp.sortSetPoints).m_depths.getD (i+1) 0 ∧
     (sp.sortSetPoints).m_setPoints.getD (i+1) 0 ≤ (sp.sortSetPoints).m_setPoints.getD i 0) := by
  have hpw : ((sp.sortSetPoints).m_depths.zip (sp.sortSetPoints).m_setPoints).Pairwise spLE :=
    sortSetPoints_pairwise sp
  have hlen := sortSetPoints_length_eq sp
  have hziplen : ((sp.sortSetPoints).m_depths.zip (sp.sortSetPoints).m_setPoints).length
      = (sp.sortSetPoints).m_depths.length := by
    simp [List.length_zip, hlen]
  have hi1 : i < (sp.sortSetPoints).m_depths.length := by
    have : i + 1 < (sp.sortSetPoints).m_depths.length := hi
    omega
  have hi2 : i + 1 < (sp.sortSetPoints).m_depths.length := hi
  have hi1s : i < (sp.sortSetPoints).m_setPoints.length := by omega
  have hi2s : i + 1 < (sp.sortSetPoints).m_setPoints.length := by omega
  have hz1 : i < ((sp.sortSetPoints).m_depths.zip (sp.sortSetPoints).m_setPoints).length := by
    omega
  have hz2 : i + 1 < ((sp.sortSetPoints).m_depths.zip (sp.sortSetPoints).m_setPoints).length := by
    omega
  have hrel := (List.pairwise_iff_getElem).mp hpw i (i+1) hz1 hz2 (by omega)
  rw [List.getElem_zip, List.getElem_zip] at hrel
  rcases hrel with h | ⟨h1, h2⟩
  · left
    rw [getD_lt _ _ _ hi1, getD_lt _ _ _ hi2]
    simpa using h
  · right
    constructor
    · rw [getD_lt _ _ _ hi1, getD_lt _ _ _ hi2]
      simpa using h1
    · rw [getD_lt _ _ _ hi1s, getD_lt _ _ _ hi2s]
      simpa using h2

end IndexLemmas

/-- CLAIM C4: after sorting (hence after every addSetPoint), adjacent
entries have strictly decreasing depth, or equal depth and non-increasing
setpoint; sorting preserves the multiset of (depth, setpoint) pairs. -/
theorem sortSetPoints_invariant :
    (∀ (sp : SetPoints) (i : ℕ), i + 1 < (sp.sortSetPoints).nbOfSetPoints →
      (sp.sortSetPoints).m_depths.getD (i+1) 0 < (sp.sortSetPoints).m_depths.getD i 0 ∨
      ((sp.sortSetPoints).m_depths.getD i 0 = (sp.sortSetPoints).m_depths.getD (i+1) 0 ∧
       (sp.sortSetPoints).m_setPoints.getD (i+1) 0 ≤ (sp.sortSetPoints).m_setPoints.getD i 0)) ∧
    (∀ sp : SetPoints,
      ((sp.sortSetPoints).m_depths.zip (sp.sortSetPoints).m_setPoints).Perm
        (sp.m_depths.zip sp.m_setPoints)) ∧
    (∀ (sp : SetPoints) (dep st : ℚ) (i : ℕ),
      i + 1 < (sp.addSetPoint dep st).nbOfSetPoints →
      (sp.addSetPoint dep st).m_depths.getD (i+1) 0
          < (sp.addSetPoint dep st).m_depths.getD i 0 ∨
      ((sp.addSetPoint dep st).m_depths.getD i 0
          = (sp.addSetPoint dep st).m_depths.getD (i+1) 0 ∧
       (sp.addSetPoint dep st).m_setPoints.getD (i+1) 0
          ≤ (sp.addSetPoint dep st).m_setPoints.getD i 0)) ∧
    (∀ (sp : SetPoints) (dep st : ℚ),
      ((sp.addSetPoint dep st).m_depths.zip (sp.addSetPoint dep st).m_setPoints).Perm
        ((sp.m_depths ++ [dep]).zip (sp.m_setPoints ++ [st]))) := by
  refine ⟨fun sp i hi => sorted_adjacent sp i hi, fun sp => sortSetPoints_perm sp,
    fun sp dep st i hi => ?_, fun sp dep st => ?_⟩
  · exact sorted_adjacent ⟨sp.m_depths ++ [dep], sp.m_setPoints ++ [st]⟩ i hi
  · exact sortSetPoints_perm ⟨sp.m_depths ++ [dep], sp.m_setPoints ++ [st]⟩

/-- Witness for C4 at concrete inputs. -/
theorem sortSetPoints_invariant_witness :
    ((SetPoints.sortSetPoints ⟨[6, 40], [16/10, 14/10]⟩).m_depths.getD 1 0
        < (SetPoints.sortSetPoints ⟨[6, 40], [16/10, 14/10]⟩).m_depths.getD 0 0 ∨
      ((SetPoints.sortSetPoints ⟨[6, 40], [16/10, 14/10]⟩).m_depths.getD 0 0
          = (SetPoints.sortSetPoints ⟨[6, 40], [16/10, 14/10]⟩).m_depths.getD 1 0 ∧
       (SetPoints.sortSetPoints ⟨[6, 40], [16/10, 14/10]⟩).m_setPoints.getD 1 0
          ≤ (SetPoints.sortSetPoints ⟨[6, 40], [16/10, 14/10]⟩).m_setPoints.getD 0 0)) ∧
    ((SetPoints.addSetPoint ⟨[6], [16/10]⟩ 40 (14/10)).m_depths.getD 1 0
        < (SetPoints.addSetPoint ⟨[6], [16/10]⟩ 40 (14/10)).m_depths.getD 0 0 ∨
      ((SetPoints.addSetPoint ⟨[6], [16/10]⟩ 40 (14/10)).m_depths.getD 0 0
          = (SetPoints.addSetPoint ⟨[6], [16/10]⟩ 40 (14/10)).m_depths.getD 1 0 ∧
       (SetPoints.addSetPoint ⟨[6], [16/10]⟩ 40 (14/10)).m_setPoints.getD 1 0
          ≤ (SetPoints.addSetPoint ⟨[6], [16/10]⟩ 40 (14/10)).m_setPoints.getD 0 0)) :=
  ⟨sortSetPoints_invariant.1 ⟨[6, 40], [16/10, 14/10]⟩ 0 (by decide),
   sortSetPoints_invariant.2.2.1 ⟨[6], [16/10]⟩ 40 (14/10) 0 (by decide)⟩

/-- CLAIM C10: removeSetPoint with an out-of-range index is a no-op; with an
in-range index it removes exactly the entry at that position from both
vectors, keeping the remaining entries in order. -/
theorem removeSetPoint_spec (sp : SetPoints) (i : ℕ) :
    (sp.nbOfSetPoints ≤ i → sp.removeSetPoint i = sp) ∧
    (i < sp.nbOfSetPoints →
      (sp.removeSetPoint i).m_depths
          = sp.m_depths.take i ++ sp.m_depths.drop (i+1) ∧
      (sp.removeSetPoint i).m_setPoints
          = sp.m_setPoints.take i ++ sp.m_setPoints.drop (i+1)) := by
  constructor
  · intro h
    have : ¬ i < sp.m_depths.length := by
      simpa [SetPoints.nbOfSetPoints] using Nat.not_lt.mpr h
    simp [SetPoints.removeSetPoint, this]
  · intro h
    have hlt : i < sp.m_depths.length := h
    simp [SetPoints.removeSetPoint, hlt, List.eraseIdx_eq_take_drop_succ]

/-- Witness for C10 at concrete inputs. -/
theorem removeSetPoint_spec_witness :
    SetPoints.removeSetPoint ⟨[9, 5], [1, 2]⟩ 5 = ⟨[9, 5], [1, 2]⟩ ∧
    (SetPoints.removeSetPoint ⟨[9, 5], [1, 2]⟩ 0).m_depths
        = [(9 : ℚ), 5].take 0 ++ [(9 : ℚ), 5].drop 1 ∧
    (SetPoints.removeSetPoint ⟨[9, 5], [1, 2]⟩ 0).m_setPoints
        = [(1 : ℚ), 2].take 0 ++ [(1 : ℚ), 2].drop 1 :=
  ⟨(removeSetPoint_spec ⟨[9, 5], [1, 2]⟩ 5).1 (by decide),
   ((removeSetPoint_spec ⟨[9, 5], [1, 2]⟩ 0).2 (by decide)).1,
   ((removeSetPoint_spec ⟨[9, 5], [1, 2]⟩ 0).2 (by decide)).2⟩

/-- CLAIM C1: with `boosted = false` and a non-empty setpoint list,
`getSetPointAtDepth` returns the first setpoint after sorting by decreasing
depth, regardless of the queried depth. -/
theorem getSetPointAtDepth_not_boosted (sp : SetPoints) (d dflt : ℚ)
    (hne : sp.m_depths ≠ []) (hlen : sp.m_depths.length = sp.m_setPoints.length) :
    sp.getSetPointAtDepth d false dflt = (sp.sortSetPoints).m_setPoints.headD 0 := by
  have hz : (sp.m_depths.zip sp.m_setPoints).length = sp.m_depths.length := by
    simp [List.length_zip, hlen]
  have hlen2 : (sp.sortSetPoints).m_depths.length = sp.m_depths.length := by
    simp [SetPoints.sortSetPoints, hz]
  have hne2 : ¬ (sp.sortSetPoints).m_depths.isEmpty := by
    rw [List.isEmpty_iff, ← List.length_eq_zero, hlen2, List.length_eq_zero]
    exact hne
  simp [SetPoints.getSetPointAtDepth, hne2]

/-- Witness for C1 at a concrete input. -/
theorem getSetPointAtDepth_not_boosted_witness :
    SetPoints.getSetPointAtDepth ⟨[6, 40], [16/10, 14/10]⟩ 3 false (7/10)
      = (SetPoints.sortSetPoints ⟨[6, 40], [16/10, 14/10]⟩).m_setPoints.headD 0 :=
  getSetPointAtDepth_not_boosted ⟨[6, 40], [16/10, 14/10]⟩ 3 (7/10)
    (by decide) (by decide)

/-- CLAIM C2: with an empty setpoint list, `getSetPointAtDepth` returns the
configured maximum diluent PpO2 for every depth and boosted flag. -/
theorem getSetPointAtDepth_empty (sp : SetPoints) (d dflt : ℚ) (boosted : Bool)
    (hemp : sp.m_depths = []) :
    sp.getSetPointAtDepth d boosted dflt = dflt := by
  have hz : sp.m_depths.zip sp.m_setPoints = [] := by
    rw [hemp]; rfl
  simp [SetPoints.getSetPointAtDepth, SetPoints.sortSetPoints, hz]

/-- Witness for C2 at a concrete input. -/
theorem getSetPointAtDepth_empty_witness :
    SetPoints.getSetPointAtDepth ⟨[], []⟩ 25 true (7/10) = 7/10 :=
  getSetPointAtDepth_empty ⟨[], []⟩ 25 (7/10) true rfl

section ScanLemmas

/-- The loop condition of Case C at index i of the depth vector. -/
def hitIdx (ds : List ℚ) (d : ℚ) (i : ℕ) : Prop :=
  i + 1 < ds.length ∧ d < ds.getD i 0 ∧ ds.getD (i+1) 0 ≤ d

instance hitIdx.instDecidable (ds : List ℚ) (d : ℚ) (i : ℕ) :
    Decidable (hitIdx ds d i) :=
  inferInstanceAs (Decidable (i + 1 < ds.length ∧ d < ds.getD i 0 ∧ ds.getD (i+1) 0 ≤ d))

/-- The last element (with default) is unchanged by dropping the head of a
list with at least two elements. -/
theorem getLastD_cons_cons (a b e : ℚ) (l : List ℚ) :
    (a :: b :: l).getLastD 0 = (b :: l).getLastD e := by
  rw [List.getLastD_eq_getLast?, List.getLastD_eq_getLast?, List.getLast?_cons_cons]
  cases hx : (b :: l).getLast? with
  | none => exact absurd hx (by simp)
  | some x => rfl

/-- The Case C loop returns a value whenever the queried depth lies strictly
below the first depth and at or above the last one (vectors of equal
length). -/
theorem scanIntervals_isSome :
    ∀ (ds ss : List ℚ) (d : ℚ), ds.length ≤ ss.length → ds ≠ [] →
      d < ds.headD 0 → ds.getLastD 0 ≤ d →
      (SetPoints.scanIntervals ds ss d).isSome = true := by
  intro ds
  induction ds with
  | nil => intro ss d _ hne _ _; exact absurd rfl hne
  | cons d0 rest ih =>
    intro ss d hlen _ hhead hlast
    cases rest with
    | nil =>
      exfalso
      have h1 : d0 ≤ d := by simpa using hlast
      have h2 : d < d0 := by simpa using hhead
      exact absurd h2 (not_lt.mpr h1)
    | cons d1 rest2 =>
      cases ss with
      | nil => simp at hlen
      | cons s0 ss2 =>
        by_cases hc : d < d0 ∧ d1 ≤ d
        · simp [SetPoints.scanIntervals, hc]
        · have hd0 : d < d0 := by simpa using hhead
          have hd1 : d < d1 := by
            rcases not_and_or.mp hc with h | h
            · exact absurd hd0 h
            · exact lt_of_not_le h
          have hlast2 : (d1 :: rest2).getLastD 0 ≤ d := by
            rw [getLastD_cons_cons d0 d1 d0 rest2] at hlast
            exact hlast
          have hlen2 : (d1 :: rest2).length ≤ ss2.length := by
            simpa using hlen
          have := ih ss2 d hlen2 (by simp) (by simpa using hd1) hlast2
          simpa [SetPoints.scanIntervals, hc] using this

/-- When the Case C loop returns a value, it is the setpoint at the first
index whose adjacent depth pair brackets the queried depth. -/
theorem scanIntervals_spec :
    ∀ (ds ss : List ℚ) (d v : ℚ), SetPoints.scanIntervals ds ss d = some v →
      ∃ i, hitIdx ds d i ∧ (∀ j, j < i → ¬ hitIdx ds d j) ∧ v = ss.getD i 0 := by
  intro ds
  induction ds with
  | nil => intro ss d v h; simp [SetPoints.scanIntervals] at h
  | cons d0 rest ih =>
    intro ss d v h
    cases rest with
    | nil =>
      cases ss with
      | nil => simp [SetPoints.scanIntervals] at h
      | cons s0 ss2 => simp [SetPoints.scanIntervals] at h
    | cons d1 rest2 =>
      cases ss with
      | nil => simp [SetPoints.scanIntervals] at h
      | cons s0 ss2 =>
        by_cases hc : d < d0 ∧ d1 ≤ d
        · have hv : v = s0 := by
            have := h
            simp [SetPoints.scanIntervals, hc] at this
            exact this.symm
          refine ⟨0, ⟨by simp, by simpa using hc.1, by simpa using hc.2⟩,
            fun j hj => absurd hj (Nat.not_lt_zero j), by simpa using hv⟩
        · have htail : SetPoints.scanIntervals (d1 :: rest2) ss2 d = some v := by
            have := h
            simpa [SetPoints.scanIntervals, hc] using this
          obtain ⟨i, hhit, hmin, hval⟩ := ih ss2 d v htail
          refine ⟨i + 1, ?_, ?_, ?_⟩
          · exact ⟨by simpa using hhit.1, by simpa using hhit.2.1,
              by simpa using hhit.2.2⟩
          · intro j hj
            cases j with
            | zero =>
              intro hj0
              exact hc ⟨by simpa using hj0.2.1, by simpa using hj0.2.2⟩
            | succ j2 =>
              intro hjs
              exact hmin j2 (by omega)
                ⟨by simpa using hjs.1, by simpa using hjs.2.1,
                 by simpa using hjs.2.2⟩
          · simpa using hval

end ScanLemmas

/-- CLAIM C3: with `boosted = true` and the queried depth strictly below the
deepest entry: below the shallowest entry the shallowest setpoint is
returned; otherwise the setpoint at the first index whose adjacent depth
pair brackets the queried depth is returned. -/
theorem getSetPointAtDepth_boosted_between (sp : SetPoints) (d dflt : ℚ)
    (hlen : sp.m_depths.length = sp.m_setPoints.length)
    (hne : sp.m_depths ≠ [])
    (hd : d < (sp.sortSetPoints).m_depths.headD 0) :
    (d < (sp.sortSetPoints).m_depths.getLastD 0 →
      sp.getSetPointAtDepth d true dflt = (sp.sortSetPoints).m_setPoints.getLastD 0) ∧
    ((sp.sortSetPoints).m_depths.getLastD 0 ≤ d →
      ∃ i, hitIdx (sp.sortSetPoints).m_depths d i ∧
        (∀ j, j < i → ¬ hitIdx (sp.sortSetPoints).m_depths d j) ∧
        sp.getSetPointAtDepth d true dflt
          = (sp.sortSetPoints).m_setPoints.getD i 0) := by
  have hz : (sp.m_depths.zip sp.m_setPoints).length = sp.m_depths.length := by
    simp [List.length_zip, hlen]
  have hlen2 : (sp.sortSetPoints).m_depths.length = sp.m_depths.length := by
    simp [SetPoints.sortSetPoints, hz]
  have hne2 : (sp.sortSetPoints).m_depths ≠ [] := by
    rw [← List.length_pos_iff_ne_nil, hlen2, List.length_pos_iff_ne_nil]
    exact hne
  have hemp : ¬ (sp.sortSetPoints).m_depths.isEmpty := by
    rw [List.isEmpty_iff]
    exact hne2
  have hnotA : ¬ ((sp.sortSetPoints).m_depths.headD 0 ≤ d ∨ (true = false)) := by
    rintro (h | h)
    · exact absurd hd (not_lt.mpr h)
    · exact Bool.noConfusion h
  constructor
  · intro hlast
    simp only [SetPoints.getSetPointAtDepth]
    rw [if_neg (by simpa using hemp), if_neg hnotA, if_pos hlast]
  · intro hlast
    have hsome := scanIntervals_isSome (sp.sortSetPoints).m_depths
      (sp.sortSetPoints).m_setPoints d (le_of_eq (sortSetPoints_length_eq sp))
      hne2 hd hlast
    obtain ⟨v, hv⟩ := Option.isSome_iff_exists.mp hsome
    obtain ⟨i, hhit, hmin, hval⟩ := scanIntervals_spec _ _ _ _ hv
    refine ⟨i, hhit, hmin, ?_⟩
    simp only [SetPoints.getSetPointAtDepth]
    rw [if_neg (by simpa using hemp), if_neg hnotA, if_neg (not_lt.mpr hlast), hv]
    exact hval

/-- Witness for C3 at concrete inputs (both branches). -/
theorem getSetPointAtDepth_boosted_between_witness :
    SetPoints.getSetPointAtDepth ⟨[40, 6], [14/10, 16/10]⟩ 3 true (7/10)
      = (SetPoints.sortSetPoints ⟨[40, 6], [14/10, 16/10]⟩).m_setPoints.getLastD 0 ∧
    (∃ i, hitIdx (SetPoints.sortSetPoints ⟨[40, 6], [14/10, 16/10]⟩).m_depths 20 i ∧
      (∀ j, j < i →
        ¬ hitIdx (SetPoints.sortSetPoints ⟨[40, 6], [14/10, 16/10]⟩).m_depths 20 j) ∧
      SetPoints.getSetPointAtDepth ⟨[40, 6], [14/10, 16/10]⟩ 20 true (7/10)
        = (SetPoints.sortSetPoints ⟨[40, 6], [14/10, 16/10]⟩).m_setPoints.getD i 0) :=
  ⟨(getSetPointAtDepth_boosted_between ⟨[40, 6], [14/10, 16/10]⟩ 3 (7/10)
      (by decide) (by decide) (by decide)).1 (by decide),
   (getSetPointAtDepth_boosted_between ⟨[40, 6], [14/10, 16/10]⟩ 20 (7/10)
      (by decide) (by decide) (by decide)).2 (by decide)⟩

/-- CLAIM C9: for a non-empty setpoint list, every depth and boosted flag,
one of the three case branches applies: Case A (depth at or beyond the
deepest entry, or not boosted), Case B (depth below the shallowest entry),
or the Case C loop finds a bracketing index, so the fallback return after
the loop is unreachable. -/
theorem getSetPointAtDepth_no_fallback (sp : SetPoints) (d : ℚ)
    (boosted : Bool)
    (hlen : sp.m_depths.length = sp.m_setPoints.length)
    (hne : sp.m_depths ≠ []) :
    ((sp.sortSetPoints).m_depths.headD 0 ≤ d ∨ boosted = false) ∨
    (d < (sp.sortSetPoints).m_depths.getLastD 0) ∨
    (SetPoints.scanIntervals (sp.sortSetPoints).m_depths
        (sp.sortSetPoints).m_setPoints d).isSome = true := by
  have hz : (sp.m_depths.zip sp.m_setPoints).length = sp.m_depths.length := by
    simp [List.length_zip, hlen]
  have hlen2 : (sp.sortSetPoints).m_depths.length = sp.m_depths.length := by
    simp [SetPoints.sortSetPoints, hz]
  have hne2 : (sp.sortSetPoints).m_depths ≠ [] := by
    rw [← List.length_pos_iff_ne_nil, hlen2, List.length_pos_iff_ne_nil]
    exact hne
  by_cases hA : (sp.sortSetPoints).m_depths.headD 0 ≤ d ∨ boosted = false
  · exact Or.inl hA
  · by_cases hB : d < (sp.sortSetPoints).m_depths.getLastD 0
    · exact Or.inr (Or.inl hB)
    · refine Or.inr (Or.inr ?_)
      have hd : d < (sp.sortSetPoints).m_depths.headD 0 := by
        rcases not_or.mp hA with ⟨h1, _⟩
        exact lt_of_not_le h1
      exact scanIntervals_isSome _ _ d (le_of_eq (sortSetPoints_length_eq sp))
        hne2 hd (not_lt.mp hB)

/-- Witness for C9 at a concrete input. -/
theorem getSetPointAtDepth_no_fallback_witness :
    ((SetPoints.sortSetPoints ⟨[40, 6], [14/10, 16/10]⟩).m_depths.headD 0 ≤ 20 ∨
      true = false) ∨
    ((20 : ℚ) < (SetPoints.sortSetPoints ⟨[40, 6], [14/10, 16/10]⟩).m_depths.getLastD 0) ∨
    (SetPoints.scanIntervals
        (SetPoints.sortSetPoints ⟨[40, 6], [14/10, 16/10]⟩).m_depths
        (SetPoints.sortSetPoints ⟨[40, 6], [14/10, 16/10]⟩).m_setPoints 20).isSome = true :=
  getSetPointAtDepth_no_fallback ⟨[40, 6], [14/10, 16/10]⟩ 20 true
    (by decide) (by decide)

section PersistenceLemmas

/-- Reading back exactly the records written for a pair list recovers the
two projections. -/
theorem readSetPointRecords_serialize (l : List (ℚ × ℚ)) :
    readSetPointRecords l.length (serializePairs l)
      = (true, l.map Prod.fst, l.map Prod.snd) := by
  induction l with
  | nil => rfl
  | cons p ps ih => simp [serializePairs, readSetPointRecords, ih]

/-- Reading back exactly the records written for a gas list recovers it. -/
theorem readGasRecords_serialize (l : List Gas) :
    readGasRecords l.length (serializeGases l) = (true, l) := by
  induction l with
  | nil => rfl
  | cons g gs ih => simp [serializeGases, readGasRecords, ih]

end PersistenceLemmas

/-- CLAIM C5 (counterexample): saving the empty setpoint list and loading it
back does not return the empty list; the loader substitutes the four
defaults when it reads zero records. -/
theorem saveLoad_roundTrip_counterexample :
    loadSetPointsFromFile ⟨[], []⟩ (FileState.ok (saveSetPointsContent ⟨[], []⟩))
      ≠ (true, (⟨[], []⟩ : SetPoints)) := by
  decide

/-- CLAIM C5 (amended): save-then-load restores every gas list exactly, and
every setpoint list with at least one entry (and well-formed parallel
vectors) exactly; an empty setpoint list instead loads as the seeded
defaults. -/
theorem saveLoad_roundTrip :
    (∀ (gl gl0 : GasList),
      loadGaslistFromFile gl0 (FileState.ok (saveGaslistContent gl)) = (true, gl)) ∧
    (∀ (sp sp0 : SetPoints), sp.m_depths.length = sp.m_setPoints.length →
      sp.m_depths ≠ [] →
      loadSetPointsFromFile sp0 (FileState.ok (saveSetPointsContent sp))
        = (true, sp)) := by
  refine ⟨fun gl gl0 => ?_, fun sp sp0 hlen hne => ?_⟩
  · show loadGaslistFromFile gl0
      (FileState.ok (FileTok.nat gl.gases.length :: serializeGases gl.gases))
        = (true, gl)
    simp [loadGaslistFromFile, readGasRecords_serialize]
  · have hc : sp.nbOfSetPoints = (sp.m_depths.zip sp.m_setPoints).length := by
      simp [SetPoints.nbOfSetPoints, List.length_zip, hlen]
    have hfst : (sp.m_depths.zip sp.m_setPoints).map Prod.fst = sp.m_depths :=
      List.map_fst_zip _ _ (le_of_eq hlen)
    have hsnd : (sp.m_depths.zip sp.m_setPoints).map Prod.snd = sp.m_setPoints :=
      List.map_snd_zip _ _ (le_of_eq hlen.symm)
    have hread := readSetPointRecords_serialize (sp.m_depths.zip sp.m_setPoints)
    rw [hfst, hsnd] at hread
    have hemp : ¬ sp.m_depths.isEmpty := by
      rw [List.isEmpty_iff]
      exact hne
    show loadSetPointsFromFile sp0
      (FileState.ok (FileTok.nat sp.nbOfSetPoints
        :: serializePairs (sp.m_depths.zip sp.m_setPoints))) = (true, sp)
    simp only [loadSetPointsFromFile, hc, hread]
    simp [hemp]

/-- Witness for C5 (amended, setpoint part) at a concrete input. -/
theorem saveLoad_roundTrip_witness :
    loadSetPointsFromFile ⟨[], []⟩
      (FileState.ok (saveSetPointsContent ⟨[40, 6], [14/10, 16/10]⟩))
        = (true, ⟨[40, 6], [14/10, 16/10]⟩) :=
  saveLoad_roundTrip.2 ⟨[40, 6], [14/10, 16/10]⟩ ⟨[], []⟩ (by decide) (by decide)

/-- CLAIM C6: with the persistence file missing, the setpoint loader leaves
exactly the four default entries, and the gas-list loader (starting from
the empty list, as in the constructor) leaves one Active Bottom gas at
21% O2 / 0% He. -/
theorem load_missing_defaults :
    (∀ sp0 : SetPoints, loadSetPointsFromFile sp0 FileState.missing
        = (false, ⟨[1000, 40, 21, 6], [13/10, 14/10, 15/10, 16/10]⟩)) ∧
    (∀ gl0 : GasList, gl0.gases = [] →
        loadGaslistFromFile gl0 FileState.missing
          = (false, ⟨[⟨21, 0, GasType.BOTTOM, GasStatus.ACTIVE⟩]⟩)) := by
  constructor
  · intro sp0
    show (false, SetPoints.setToDefault ⟨[], []⟩) = _
    norm_num [SetPoints.setToDefault, SetPoints.addSetPoint, SetPoints.sortSetPoints,
      spLE]
  · intro gl0 h
    simp [loadGaslistFromFile, h]

/-- Witness for C6 at concrete inputs. -/
theorem load_missing_defaults_witness :
    loadSetPointsFromFile ⟨[9], [1]⟩ FileState.missing
      = (false, ⟨[1000, 40, 21, 6], [13/10, 14/10, 15/10, 16/10]⟩) ∧
    loadGaslistFromFile ⟨[]⟩ FileState.missing
      = (false, ⟨[⟨21, 0, GasType.BOTTOM, GasStatus.ACTIVE⟩]⟩) :=
  ⟨load_missing_defaults.1 ⟨[9], [1]⟩, load_missing_defaults.2 ⟨[]⟩ rfl⟩

/-- CLAIM C7 (counterexample): when the setpoints file exists but cannot be
opened, the loader returns false but the in-memory setpoint list is NOT
left unchanged: it was cleared at entry. -/
theorem loadSetPoints_mutates_counterexample :
    (loadSetPointsFromFile ⟨[5], [14/10]⟩ FileState.openFail).1 = false ∧
    (loadSetPointsFromFile ⟨[5], [14/10]⟩ FileState.openFail).2
      ≠ (⟨[5], [14/10]⟩ : SetPoints) := by
  decide

/-- CLAIM C7 (amended): a failed load returns false; the gas list is left
unchanged when its file cannot be opened, but the setpoint list is cleared
at the start of its load, so after a failed open it is empty rather than
unchanged. -/
theorem load_failure_behavior :
    (∀ gl : GasList, loadGaslistFromFile gl FileState.openFail = (false, gl)) ∧
    (∀ sp : SetPoints,
      loadSetPointsFromFile sp FileState.openFail = (false, (⟨[], []⟩ : SetPoints))) :=
  ⟨fun _ => rfl, fun _ => rfl⟩

/-- One user stop step: depth and duration. -/
structure StopStep where
  m_depth : ℚ
  m_time : ℚ
deriving DecidableEq

/-- The `StopSteps` class: a vector of stop steps. -/
structure StopSteps where
  m_stopSteps : List StopStep
deriving DecidableEq

/-- StopSteps::nbOfStopSteps (accessor; count of entries). -/
def StopSteps.nbOfStopSteps (s : StopSteps) : ℕ := s.m_stopSteps.length

/-- Modelled from the spec: `StopSteps::removeStopStep` is not among the
provided sources (only its GUI caller is); per the spec StopSteps is an
ordered sequence and removal deletes the entry at the given index. -/
def StopSteps.removeStopStep (s : StopSteps) (row : ℕ) : StopSteps :=
  ⟨s.m_stopSteps.eraseIdx row⟩

/-- DivePlanWindow::deleteStopStep: delete only when more than one stop step
remains (GUI state flags and table refreshes elided). -/
def deleteStopStep (s : StopSteps) (row : ℕ) : StopSteps :=
  if 1 < s.nbOfStopSteps then s.removeStopStep row else s

/-- DivePlanWindow::deleteSetpoint: bounds check on the row, then delete
only when more than one setpoint remains. -/
def deleteSetpoint (sp : SetPoints) (row : ℕ) : SetPoints :=
  if row < sp.nbOfSetPoints then
    if 1 < sp.nbOfSetPoints then sp.removeSetPoint row else sp
  else sp

section DeleteLemmas

/-- One guarded stop-step deletion keeps the list non-empty. -/
theorem deleteStopStep_ne_nil (s : StopSteps) (row : ℕ)
    (h : s.m_stopSteps ≠ []) : (deleteStopStep s row).m_stopSteps ≠ [] := by
  by_cases hg : 1 < s.nbOfStopSteps
  · simp only [deleteStopStep, hg, if_pos, StopSteps.removeStopStep]
    exact List.eraseIdx_ne_nil.mpr (Or.inl hg)
  · simpa [deleteStopStep, hg] using h

/-- One guarded setpoint deletion keeps the depth vector non-empty. -/
theorem deleteSetpoint_ne_nil (sp : SetPoints) (row : ℕ)
    (h : sp.m_depths ≠ []) : (deleteSetpoint sp row).m_depths ≠ [] := by
  by_cases hb : row < sp.nbOfSetPoints
  · by_cases hg : 1 < sp.nbOfSetPoints
    · have hrow : row < sp.m_depths.length := hb
      simp only [deleteSetpoint, hb, hg, if_pos, SetPoints.removeSetPoint, hrow]
      exact List.eraseIdx_ne_nil.mpr (Or.inl hg)
    · simpa [deleteSetpoint, hb, hg] using h
  · simpa [deleteSetpoint, hb] using h

end DeleteLemmas

/-- CLAIM C8: deleting the only remaining stop step or setpoint is a no-op,
and any sequence of guarded deletions starting from a non-empty list keeps
the list non-empty. -/
theorem delete_keeps_one_entry :
    (∀ (s : StopSteps) (row : ℕ), s.nbOfStopSteps = 1 → deleteStopStep s row = s) ∧
    (∀ (sp : SetPoints) (row : ℕ), sp.nbOfSetPoints = 1 → deleteSetpoint sp row = sp) ∧
    (∀ (ops : List ℕ) (s : StopSteps), s.m_stopSteps ≠ [] →
      (ops.foldl deleteStopStep s).m_stopSteps ≠ []) ∧
    (∀ (ops : List ℕ) (sp : SetPoints), sp.m_depths ≠ [] →
      (ops.foldl deleteSetpoint sp).m_depths ≠ []) := by
  refine ⟨fun s row h => ?_, fun sp row h => ?_, fun ops => ?_, fun ops => ?_⟩
  · simp [deleteStopStep, h]
  · by_cases hb : row < sp.nbOfSetPoints
    · simp [deleteSetpoint, hb, h]
    · simp [deleteSetpoint, hb]
  · induction ops with
    | nil => intro s h; simpa using h
    | cons op ops ih =>
      intro s h
      exact ih (deleteStopStep s op) (deleteStopStep_ne_nil s op h)
  · induction ops with
    | nil => intro sp h; simpa using h
    | cons op ops ih =>
      intro sp h
      exact ih (deleteSetpoint sp op) (deleteSetpoint_ne_nil sp op h)

/-- Witness for C8 at concrete inputs. -/
theorem delete_keeps_one_entry_witness :
    deleteStopStep ⟨[⟨3, 1⟩]⟩ 0 = ⟨[⟨3, 1⟩]⟩ ∧
    deleteSetpoint ⟨[6], [16/10]⟩ 0 = ⟨[6], [16/10]⟩ ∧
    ([0, 0, 1].foldl deleteStopStep ⟨[⟨3, 1⟩, ⟨6, 2⟩]⟩).m_stopSteps ≠ [] ∧
    ([1, 0, 0].foldl deleteSetpoint ⟨[40, 6], [14/10, 16/10]⟩).m_depths ≠ [] :=
  ⟨delete_keeps_one_entry.1 ⟨[⟨3, 1⟩]⟩ 0 rfl,
   delete_keeps_one_entry.2.1 ⟨[6], [16/10]⟩ 0 rfl,
   delete_keeps_one_entry.2.2.1 [0, 0, 1] ⟨[⟨3, 1⟩, ⟨6, 2⟩]⟩ (by decide),
   delete_keeps_one_entry.2.2.2 [1, 0, 0] ⟨[40, 6], [14/10, 16/10]⟩ (by decide)⟩

end DiveComputer
